import Mathlib

/-!
Shallow embedding of the deterministic level builder (`buildLevel` and its
helpers) of the reality-jump repository, together with theorems settling the
specification claims about it.

Numbers are modelled as rationals (`ℚ`); every numeric literal of the source
is exactly representable.  JavaScript's `Array.prototype.sort` with a numeric
comparator is a stable sort; since a stable sort for a given total preorder is
unique, it is modelled by `List.insertionSort` (stable) with the corresponding
relation.
-/

set_option maxRecDepth 100000
set_option maxHeartbeats 2000000

namespace RealityJump

/-- Category of a detection, as in the `Detection` input type. -/
inductive DCategory
  | furniture | food | plant | electric | other
  deriving DecidableEq, Inhabited

/-- Normalized bounds record `{x, y, w, h}`. -/
structure Bounds where
  x : ℚ
  y : ℚ
  w : ℚ
  h : ℚ
  deriving DecidableEq, Inhabited

/-- One AI detection (input). -/
structure Detection where
  label : String
  category : DCategory
  confidence : ℚ
  bounds_normalized : Bounds
  deriving DecidableEq, Inhabited

/-- Echoed image dimensions. -/
structure ImageSize where
  w : ℚ
  h : ℚ
  deriving DecidableEq, Inhabited

/-- The input of `buildLevel`. -/
structure DetectionResponse where
  image : ImageSize
  detections : List Detection
  deriving DecidableEq, Inhabited

/-- The `type` tag of a `SceneObject`. -/
inductive ObjType
  | platform | obstacle | collectible | hazard
  deriving DecidableEq, Inhabited

/-- The `surface_type` values admitted by the output schema. -/
inductive SurfaceKind
  | solid | soft
  deriving DecidableEq, Inhabited

/-- One object of the emitted scene; optional fields become `Option`. -/
structure SceneObject where
  id : String
  type : ObjType
  label : String
  confidence : ℚ
  bounds_normalized : Bounds
  surface_type : Option SurfaceKind
  category : Option DCategory
  enemy_spawn_anchor : Option Bool
  deriving DecidableEq, Inhabited

/-- A spawn position. -/
structure SpawnPoint where
  x : ℚ
  y : ℚ
  deriving DecidableEq, Inhabited

/-- An enemy spawn (`SpawnPoint` plus a type string). -/
structure EnemySpawn where
  x : ℚ
  y : ℚ
  type : String
  deriving DecidableEq, Inhabited

/-- A pickup spawn (`SpawnPoint` plus a type string). -/
structure PickupSpawn where
  x : ℚ
  y : ℚ
  type : String
  deriving DecidableEq, Inhabited

/-- The `spawns` record of the scene. -/
structure Spawns where
  player : SpawnPoint
  exit : SpawnPoint
  enemies : List EnemySpawn
  pickups : List PickupSpawn
  deriving DecidableEq, Inhabited

/-- The emitted scene (`rules` is always empty, modelled as `List Unit`). -/
structure SceneV1 where
  version : Nat
  image : ImageSize
  objects : List SceneObject
  spawns : Spawns
  rules : List Unit
  deriving DecidableEq, Inhabited

/-- Constant `MAX_JUMP_HEIGHT` of the source. -/
def MAX_JUMP_HEIGHT : ℚ := 0.25

/-- Constant `MAX_HORIZONTAL_REACH` of the source. -/
def MAX_HORIZONTAL_REACH : ℚ := 0.40

/-- Constant `MIN_PLATFORM_WIDTH` of the source. -/
def MIN_PLATFORM_WIDTH : ℚ := 0.08

/-- Constant `PLATFORM_THICKNESS` of the source. -/
def PLATFORM_THICKNESS : ℚ := 0.03

/-- Constant `MAX_PLATFORMS` of the source. -/
def MAX_PLATFORMS : Nat := 10

/-- Constant `ENTITY_OFFSET_Y` of the source. -/
def ENTITY_OFFSET_Y : ℚ := 0.06

/-- Source helper `clamp(v, lo, hi) = Math.max(lo, Math.min(hi, v))`. -/
def clamp (v lo hi : ℚ) : ℚ := max lo (min hi v)

/-- Source helper `horizontalOverlap`. -/
def horizontalOverlap (a b : Bounds) : Bool :=
  decide (a.x < b.x + b.w) && decide (a.x + a.w > b.x)

/-- Source helper `horizontalGap`: distance between nearest edges, `0` on overlap. -/
def horizontalGap (a b : Bounds) : ℚ :=
  let aRight := a.x + a.w
  let bRight := b.x + b.w
  if a.x < bRight ∧ aRight > b.x then 0
  else min |a.x - bRight| |b.x - aRight|

/-- Internal `PlatformCandidate` record of `buildLevel`. -/
structure PlatformCandidate where
  label : String
  category : DCategory
  confidence : ℚ
  bounds : Bounds
  isBridge : Bool
  isGround : Bool
  enemyAnchor : Bool
  deriving DecidableEq, Inhabited

/-- Step A: the clamped thin platform slab derived from a detection's bounds. -/
def detectionPlatBounds (det : Detection) : Bounds :=
  { x := clamp det.bounds_normalized.x 0 0.95
    y := clamp det.bounds_normalized.y 0.05 0.90
    w := clamp det.bounds_normalized.w 0.05 0.9
    h := PLATFORM_THICKNESS }

/-- Step A: the candidate pushed for a wide-enough non-food detection. -/
def detectionCandidate (det : Detection) : PlatformCandidate :=
  { label := det.label
    category := det.category
    confidence := det.confidence
    bounds := detectionPlatBounds det
    isBridge := false
    isGround := false
    enemyAnchor := (det.category == DCategory.plant) || (det.category == DCategory.electric) }

/-- The detections routed to the collectible list (`category == 'food'`).
The source's single pass routes every detection to exactly one of three lists,
preserving order; the three lists are modelled as order-preserving filters. -/
def collectibleDetections (dets : List Detection) : List Detection :=
  dets.filter (fun det => det.category == DCategory.food)

/-- The non-food detections whose clamped width is below `MIN_PLATFORM_WIDTH`,
routed to the obstacle list. -/
def obstacleDetections (dets : List Detection) : List Detection :=
  dets.filter (fun det =>
    det.category != DCategory.food &&
      decide ((detectionPlatBounds det).w < MIN_PLATFORM_WIDTH))

/-- The non-food, wide-enough detections, as platform candidates (Step A). -/
def platformCandidates (dets : List Detection) : List PlatformCandidate :=
  (dets.filter (fun det =>
      det.category != DCategory.food &&
        !decide ((detectionPlatBounds det).w < MIN_PLATFORM_WIDTH))).map
    detectionCandidate

/-- Step B: the synthetic ground platform. -/
def groundCandidate : PlatformCandidate :=
  { label := "ground"
    category := DCategory.furniture
    confidence := 1
    bounds := { x := 0, y := 0.92, w := 1, h := PLATFORM_THICKNESS }
    isBridge := false
    isGround := true
    enemyAnchor := false }

/-- Comparator of the descending-`y` sorts (`(a, b) => b.bounds.y - a.bounds.y`):
`a` may stay before `b` iff `b.bounds.y ≤ a.bounds.y`. -/
def leY (a b : PlatformCandidate) : Prop := b.bounds.y ≤ a.bounds.y

/-- Comparator of the ascending-`y` sort in Step J. -/
def leYAsc (a b : PlatformCandidate) : Prop := a.bounds.y ≤ b.bounds.y

instance : DecidableRel leY := fun _ _ => inferInstanceAs (Decidable (_ ≤ _))

instance : DecidableRel leYAsc := fun _ _ => inferInstanceAs (Decidable (_ ≤ _))

instance : IsTotal PlatformCandidate leY :=
  ⟨fun p q => le_total q.bounds.y p.bounds.y⟩

instance : IsTrans PlatformCandidate leY :=
  ⟨fun _ _ _ h h' => le_trans h' h⟩

instance : IsTotal PlatformCandidate leYAsc :=
  ⟨fun p q => le_total p.bounds.y q.bounds.y⟩

instance : IsTrans PlatformCandidate leYAsc :=
  ⟨fun _ _ _ h h' => le_trans h h'⟩

/-- The stable descending-`y` sort used in Steps C/E. -/
def sortDescY (ps : List PlatformCandidate) : List PlatformCandidate :=
  List.insertionSort leY ps

/-- Step D predicate: an already-kept candidate is too close to the new one. -/
def tooClose (existing cand : PlatformCandidate) : Bool :=
  decide (|existing.bounds.y - cand.bounds.y| < 0.05) &&
    horizontalOverlap existing.bounds cand.bounds

/-- Step D linear scan, accumulating the kept candidates in order. -/
def dedupAux (acc : List PlatformCandidate) :
    List PlatformCandidate → List PlatformCandidate
  | [] => acc
  | cand :: rest =>
    if acc.any (fun e => tooClose e cand) then dedupAux acc rest
    else dedupAux (acc ++ [cand]) rest

/-- Step D: de-duplicate overlapping platforms at similar heights. -/
def dedup (cands : List PlatformCandidate) : List PlatformCandidate :=
  dedupAux [] cands

/-- The platform list entering the repair loop: candidates plus ground,
sorted by descending `y`, de-duplicated, truncated to `MAX_PLATFORMS`. -/
def initialPlatforms (dets : List Detection) : List PlatformCandidate :=
  (dedup (sortDescY (platformCandidates dets ++ [groundCandidate]))).take MAX_PLATFORMS

/-- The bridge platform synthesized for a vertical-gap violation. -/
def mkBridge (lower upper : PlatformCandidate) : PlatformCandidate :=
  let midY := (lower.bounds.y + upper.bounds.y) / 2
  let lowerCenterX := lower.bounds.x + lower.bounds.w / 2
  let upperCenterX := upper.bounds.x + upper.bounds.w / 2
  let bridgeX := clamp ((lowerCenterX + upperCenterX) / 2 - 0.075) 0.02 0.85
  { label := "bridge"
    category := DCategory.other
    confidence := 1
    bounds := { x := bridgeX, y := midY, w := 0.15, h := PLATFORM_THICKNESS }
    isBridge := true
    isGround := false
    enemyAnchor := false }

/-- The stepping-stone platform synthesized for a horizontal-gap violation. -/
def mkSteppingStone (lower upper : PlatformCandidate) : PlatformCandidate :=
  let midY := (lower.bounds.y + upper.bounds.y) / 2
  let midX := clamp
    ((lower.bounds.x + lower.bounds.w / 2 + upper.bounds.x + upper.bounds.w / 2) / 2 - 0.075)
    0.02 0.85
  { label := "stepping stone"
    category := DCategory.other
    confidence := 1
    bounds := { x := midX, y := midY, w := 0.15, h := PLATFORM_THICKNESS }
    isBridge := true
    isGround := false
    enemyAnchor := false }

/-- One pass of the repair loop's inner `for`: find the first consecutive pair
violating a traversal constraint, insert the synthesized platform between the
two (source: `splice(i + 1, 0, bridge)` then `break`), or return `none` when
the full scan finds no violation. -/
def repairScan : List PlatformCandidate → Option (List PlatformCandidate)
  | lower :: upper :: rest =>
    if lower.bounds.y - upper.bounds.y > MAX_JUMP_HEIGHT then
      some (lower :: mkBridge lower upper :: upper :: rest)
    else if horizontalGap lower.bounds upper.bounds > MAX_HORIZONTAL_REACH then
      some (lower :: mkSteppingStone lower upper :: upper :: rest)
    else
      match repairScan (upper :: rest) with
      | some rest2 => some (lower :: rest2)
      | none => none
  | _ => none

/-- The outer repair loop (`while (bridgesInserted && iterations < 10)`);
the fuel is the number of remaining iterations.  Each iteration re-sorts the
list (source line re-sorting after insertion), whether or not it inserted. -/
def repairLoop : Nat → List PlatformCandidate → List PlatformCandidate
  | 0, ps => ps
  | n + 1, ps =>
    match repairScan ps with
    | none => sortDescY ps
    | some ps2 => repairLoop n (sortDescY ps2)

/-- Whether the repair loop exhausts its fuel: `true` iff every one of the
given number of iterations inserts a platform (so the loop never saw a clean
full scan before its cap). -/
def repairExhausted : Nat → List PlatformCandidate → Bool
  | 0, _ => true
  | n + 1, ps =>
    match repairScan ps with
    | none => false
    | some ps2 => repairExhausted n (sortDescY ps2)

/-- The platform list after the Step E repair loop (cap of 10 iterations). -/
def repairedPlatforms (dets : List Detection) : List PlatformCandidate :=
  repairLoop 10 (sortDescY (initialPlatforms dets))

/-- The final platform list: repaired, then truncated to 12 entries
(source: `while (platforms.length > 12) platforms.pop()`). -/
def finalPlatforms (dets : List Detection) : List PlatformCandidate :=
  (repairedPlatforms dets).take 12

/-- The repair loop converged: some full scan within the 10-iteration cap
found no violation. -/
def repairConverged (dets : List Detection) : Bool :=
  !repairExhausted 10 (sortDescY (initialPlatforms dets))

/-- The id word used for a platform candidate's scene object. -/
def idStem (p : PlatformCandidate) : String :=
  if p.isGround then "ground" else if p.isBridge then "bridge" else "plat"

/-- Map with the running value of the shared `idCounter`. -/
def mapFrom {α β : Type} (f : Nat → α → β) : Nat → List α → List β
  | _, [] => []
  | n, a :: as => f n a :: mapFrom f (n + 1) as

/-- Step F: the scene object emitted for one platform candidate. -/
def mkPlatformObject (n : Nat) (p : PlatformCandidate) : SceneObject :=
  { id := idStem p ++ "_" ++ toString n
    type := ObjType.platform
    label := p.label
    confidence := p.confidence
    bounds_normalized := p.bounds
    surface_type :=
      some (if p.category = DCategory.furniture then SurfaceKind.solid else SurfaceKind.solid)
    category := some (if p.category = DCategory.other then DCategory.other else p.category)
    enemy_spawn_anchor := some p.enemyAnchor }

/-- Step G: the scene object emitted for one obstacle detection. -/
def mkObstacleObject (n : Nat) (det : Detection) : SceneObject :=
  { id := "obs_" ++ toString n
    type := ObjType.obstacle
    label := det.label
    confidence := det.confidence
    bounds_normalized := det.bounds_normalized
    surface_type := none
    category := some det.category
    enemy_spawn_anchor :=
      some ((det.category == DCategory.plant) || (det.category == DCategory.electric)) }

/-- Step H: the scene object emitted for one collectible (food) detection. -/
def mkCollectibleObject (n : Nat) (det : Detection) : SceneObject :=
  { id := "col_" ++ toString n
    type := ObjType.collectible
    label := det.label
    confidence := det.confidence
    bounds_normalized := det.bounds_normalized
    surface_type := none
    category := some DCategory.food
    enemy_spawn_anchor := none }

/-- Step L filter: platforms eligible for enemy placement. -/
def enemyPred (p : PlatformCandidate) : Bool :=
  !p.isGround && !p.isBridge && decide (p.bounds.w > 0.15)

/-- Step L: the (at most two) platforms chosen for enemies, in list order. -/
def enemyPlatforms (ps : List PlatformCandidate) : List PlatformCandidate :=
  (ps.filter enemyPred).take 2

/-- The positions, in the final platform list, of the platforms chosen for
enemies.  The source resolves each chosen candidate back to its scene object
with `o.bounds_normalized === plat.bounds`; JavaScript `===` on objects is
reference equality, and each candidate's bounds record is a distinct object
shared with exactly one platform scene object, so the lookup resolves to the
platform object at the candidate's own list index. -/
def enemyIdxs (ps : List PlatformCandidate) : List Nat :=
  ((ps.enum.filter (fun ip => enemyPred ip.2)).take 2).map Prod.fst

/-- The update Step L applies to a chosen platform's scene object
(`platObj.enemy_spawn_anchor = true`). -/
def setTrueAnchor (o : SceneObject) : SceneObject :=
  { o with enemy_spawn_anchor := some true }

/-- Set `enemy_spawn_anchor := true` on the object at one index. -/
def setAnchorTrue : List SceneObject → Nat → List SceneObject
  | [], _ => []
  | o :: os, 0 => setTrueAnchor o :: os
  | o :: os, n + 1 => o :: setAnchorTrue os n

/-- Step L's marking of the chosen platforms' scene objects. -/
def markAnchors (objs : List SceneObject) (idxs : List Nat) : List SceneObject :=
  idxs.foldl setAnchorTrue objs

/-- Steps F-H and L: the full `objects` list of the scene. -/
def objectsOf (dets : List Detection) (ps : List PlatformCandidate) : List SceneObject :=
  let obs := mapFrom mkObstacleObject ps.length ((obstacleDetections dets).take 4)
  let cols := mapFrom mkCollectibleObject (ps.length + obs.length)
    ((collectibleDetections dets).take 5)
  markAnchors (mapFrom mkPlatformObject 0 ps) (enemyIdxs ps) ++ obs ++ cols

/-- Step I: `platforms.find((p) => p.isGround) || platforms[0]`.  The list is
never empty (the ground survives every stage), so the `headI` default is
unreachable. -/
def groundPlatOf (ps : List PlatformCandidate) : PlatformCandidate :=
  (ps.find? (fun p => p.isGround)).getD ps.headI

/-- Step I: the player spawn. -/
def playerSpawnOf (ps : List PlatformCandidate) : SpawnPoint :=
  { x := 0.08, y := (groundPlatOf ps).bounds.y - ENTITY_OFFSET_Y }

/-- Step J: the highest platform (smallest `y`; stable ascending sort, first
element). -/
def highestPlatOf (ps : List PlatformCandidate) : PlatformCandidate :=
  (List.insertionSort leYAsc ps).headI

/-- Step J: the exit spawn. -/
def exitSpawnOf (ps : List PlatformCandidate) : SpawnPoint :=
  let hp := highestPlatOf ps
  { x := clamp (hp.bounds.x + hp.bounds.w - 0.05) 0.7 0.95
    y := hp.bounds.y - ENTITY_OFFSET_Y }

/-- Step K: platforms eligible for the primary pickup pass. -/
def pickupPlatformsOf (ps : List PlatformCandidate) : List PlatformCandidate :=
  ps.filter (fun p => !p.isGround && !p.isBridge)

/-- Step K: one pickup per eligible platform, up to 5; the first is `health`. -/
def primaryPickups (ps : List PlatformCandidate) : List PickupSpawn :=
  mapFrom
    (fun i p =>
      { x := clamp (p.bounds.x + p.bounds.w / 2) 0.05 0.95
        y := p.bounds.y - ENTITY_OFFSET_Y
        type := if i = 0 then "health" else "coin" })
    0 ((pickupPlatformsOf ps).take 5)

/-- Step K: top up from bridge platforms when fewer than 3 pickups, stopping
at 4 total. -/
def withBridgePickups (ps : List PlatformCandidate) (pk : List PickupSpawn) :
    List PickupSpawn :=
  if pk.length < 3 then
    pk ++ ((ps.filter (fun p => p.isBridge)).take (4 - pk.length)).map
      (fun bp =>
        { x := clamp (bp.bounds.x + bp.bounds.w / 2) 0.05 0.95
          y := bp.bounds.y - ENTITY_OFFSET_Y
          type := "coin" })
  else pk

/-- Step K: the two literal ground fallback pickups when still fewer than 3. -/
def withFallbackPickups (ps : List PlatformCandidate) (pk : List PickupSpawn) :
    List PickupSpawn :=
  if pk.length < 3 then
    pk ++
      [{ x := 0.3, y := (groundPlatOf ps).bounds.y - ENTITY_OFFSET_Y, type := "coin" },
       { x := 0.5, y := (groundPlatOf ps).bounds.y - ENTITY_OFFSET_Y, type := "coin" }]
  else pk

/-- Step K: the full pickup list. -/
def pickupsOf (ps : List PlatformCandidate) : List PickupSpawn :=
  withFallbackPickups ps (withBridgePickups ps (primaryPickups ps))

/-- Step L: the enemy spawns. -/
def enemiesOf (ps : List PlatformCandidate) : List EnemySpawn :=
  (enemyPlatforms ps).map (fun p =>
    { x := clamp (p.bounds.x + p.bounds.w / 2) 0.05 0.95
      y := p.bounds.y - ENTITY_OFFSET_Y
      type := "walker" })

/-- The full level builder (`buildLevel`). -/
def buildLevel (input : DetectionResponse) : SceneV1 :=
  let ps := finalPlatforms input.detections
  { version := 1
    image := input.image
    objects := objectsOf input.detections ps
    spawns :=
      { player := playerSpawnOf ps
        exit := exitSpawnOf ps
        enemies := enemiesOf ps
        pickups := pickupsOf ps }
    rules := [] }

/-- The traversal constraint on a consecutive platform pair (lower first). -/
def pairOk (a b : PlatformCandidate) : Prop :=
  a.bounds.y - b.bounds.y ≤ MAX_JUMP_HEIGHT ∧
    horizontalGap a.bounds b.bounds ≤ MAX_HORIZONTAL_REACH

/-- Invariant of every platform candidate that can appear in the platform
list: the only candidate flagged as ground is the synthetic ground, every
other candidate sits strictly above it, and every `y` is in `[0.05, 0.92]`;
no candidate comes from a food detection. -/
def goodCand (p : PlatformCandidate) : Prop :=
  (p.isGround = true → p = groundCandidate) ∧
  (p.isGround = false → p.bounds.y < 0.92) ∧
  0.05 ≤ p.bounds.y ∧ p.bounds.y ≤ 0.92 ∧
  ¬ p.category = DCategory.food

/-- The platform-list invariant threaded through every stage of the
pipeline: every member is a `goodCand`, the ground is present, and it is
present at most once. -/
def goodList (ps : List PlatformCandidate) : Prop :=
  (∀ p ∈ ps, goodCand p) ∧ groundCandidate ∈ ps ∧
    ps.count groundCandidate ≤ 1

/-- The coordinate ranges every spawn point actually satisfies. -/
def spawnInRange (x y : ℚ) : Prop := 0 ≤ x ∧ x ≤ 1 ∧ -0.01 ≤ y ∧ y ≤ 1

/-- An input with no detections at all (Scenario A of the spec). -/
def emptyInput : DetectionResponse :=
  { image := { w := 100, h := 100 }, detections := [] }

/-- An input whose only detection yields the highest platform far at the
left edge, at the minimum clamped height `y = 0.05`. -/
def highShelfInput : DetectionResponse :=
  { image := { w := 100, h := 100 }
    detections :=
      [{ label := "shelf", category := DCategory.furniture, confidence := 0.9,
         bounds_normalized := { x := 0.1, y := 0.05, w := 0.1, h := 0.2 } }] }

/-- An input with six food detections (one more than the collectible cap). -/
def sixFoodInput : DetectionResponse :=
  { image := { w := 100, h := 100 }
    detections :=
      [{ label := "apple", category := DCategory.food, confidence := 0.9,
         bounds_normalized := { x := 0.10, y := 0.50, w := 0.05, h := 0.05 } },
       { label := "pear", category := DCategory.food, confidence := 0.9,
         bounds_normalized := { x := 0.20, y := 0.50, w := 0.05, h := 0.05 } },
       { label := "plum", category := DCategory.food, confidence := 0.9,
         bounds_normalized := { x := 0.30, y := 0.50, w := 0.05, h := 0.05 } },
       { label := "kiwi", category := DCategory.food, confidence := 0.9,
         bounds_normalized := { x := 0.40, y := 0.50, w := 0.05, h := 0.05 } },
       { label := "fig", category := DCategory.food, confidence := 0.9,
         bounds_normalized := { x := 0.50, y := 0.50, w := 0.05, h := 0.05 } },
       { label := "date", category := DCategory.food, confidence := 0.9,
         bounds_normalized := { x := 0.60, y := 0.50, w := 0.05, h := 0.05 } }] }

/-- An input with one wide furniture detection, so that exactly one platform
qualifies for enemy placement. -/
def wideTableInput : DetectionResponse :=
  { image := { w := 100, h := 100 }
    detections :=
      [{ label := "table", category := DCategory.furniture, confidence := 0.9,
         bounds_normalized := { x := 0.2, y := 0.5, w := 0.5, h := 0.3 } }] }

/-- The scene object the ground platform always becomes. -/
def groundSceneObject : SceneObject :=
  { id := "ground_0"
    type := ObjType.platform
    label := "ground"
    confidence := 1
    bounds_normalized := { x := 0, y := 0.92, w := 1, h := 0.03 }
    surface_type := some SurfaceKind.solid
    category := some DCategory.furniture
    enemy_spawn_anchor := some false }

end RealityJump

namespace RealityJump

theorem buildLevel_objects (input : DetectionResponse) :
    (buildLevel input).objects =
      objectsOf input.detections (finalPlatforms input.detections) := by
  simp only [buildLevel]

theorem buildLevel_player (input : DetectionResponse) :
    (buildLevel input).spawns.player =
      playerSpawnOf (finalPlatforms input.detections) := by
  simp only [buildLevel]

theorem buildLevel_exit (input : DetectionResponse) :
    (buildLevel input).spawns.exit =
      exitSpawnOf (finalPlatforms input.detections) := by
  simp only [buildLevel]

theorem buildLevel_enemies (input : DetectionResponse) :
    (buildLevel input).spawns.enemies =
      enemiesOf (finalPlatforms input.detections) := by
  simp only [buildLevel]

theorem buildLevel_pickups (input : DetectionResponse) :
    (buildLevel input).spawns.pickups =
      pickupsOf (finalPlatforms input.detections) := by
  simp only [buildLevel]

theorem le_clamp (v lo hi : ℚ) : lo ≤ clamp v lo hi := le_max_left _ _

theorem clamp_le {lo hi : ℚ} (v : ℚ) (h : lo ≤ hi) : clamp v lo hi ≤ hi :=
  max_le h (min_le_left _ _)

theorem withFallbackPickups_length (ps : List PlatformCandidate)
    (pk : List PickupSpawn) : 2 ≤ (withFallbackPickups ps pk).length := by
  unfold withFallbackPickups
  by_cases h : pk.length < 3
  · rw [if_pos h, List.length_append]
    simp
  · rw [if_neg h]
    omega

/-- C8: for every input, including an empty detections list, the emitted
scene has at least two pickups (the ground fallback rule guarantees it). -/
theorem c8_pickup_floor (input : DetectionResponse) :
    2 ≤ (buildLevel input).spawns.pickups.length := by
  rw [buildLevel_pickups]
  exact withFallbackPickups_length _ _

/-- C7: the repair engine's synthesized platform has width `0.15`, `y` at the
vertical midpoint of the gapped pair, and `x` at the midpoint of the two
platforms' centers recentred by half its width and clamped into
`[0.02, 0.85]`; the stepping-stone uses the identical sizing rule, and the
scan inserts a bridge exactly on a vertical violation and a stepping-stone
exactly on a horizontal violation of a pair with no vertical violation. -/
theorem c7_repair_synthesis (lower upper : PlatformCandidate)
    (rest : List PlatformCandidate) :
    (mkBridge lower upper).bounds.w = 0.15 ∧
    (mkBridge lower upper).bounds.y = (lower.bounds.y + upper.bounds.y) / 2 ∧
    (mkBridge lower upper).bounds.x =
      clamp
        (((lower.bounds.x + lower.bounds.w / 2) +
            (upper.bounds.x + upper.bounds.w / 2)) / 2 - 0.15 / 2) 0.02 0.85 ∧
    0.02 ≤ (mkBridge lower upper).bounds.x ∧
    (mkBridge lower upper).bounds.x ≤ 0.85 ∧
    (mkSteppingStone lower upper).bounds = (mkBridge lower upper).bounds ∧
    repairScan (lower :: upper :: rest) =
      (if lower.bounds.y - upper.bounds.y > MAX_JUMP_HEIGHT then
        some (lower :: mkBridge lower upper :: upper :: rest)
      else if horizontalGap lower.bounds upper.bounds > MAX_HORIZONTAL_REACH then
        some (lower :: mkSteppingStone lower upper :: upper :: rest)
      else (repairScan (upper :: rest)).map (fun tl => lower :: tl)) := by
  refine ⟨rfl, rfl, ?_, le_clamp _ _ _, clamp_le _ (by norm_num), ?_, ?_⟩
  · show clamp _ 0.02 0.85 = clamp _ 0.02 0.85
    congr 1
    norm_num
  · show Bounds.mk _ _ _ _ = Bounds.mk _ _ _ _
    congr 1
    ring_nf
  · by_cases h1 : lower.bounds.y - upper.bounds.y > MAX_JUMP_HEIGHT
    · simp [repairScan, h1]
    · by_cases h2 : horizontalGap lower.bounds upper.bounds > MAX_HORIZONTAL_REACH
      · simp [repairScan, h1, h2]
      · cases h3 : repairScan (upper :: rest) <;> simp [repairScan, h1, h2, h3]

/-- C9: an empty detections list produces exactly the minimal level: one
ground platform object, player at `(0.08, 0.86)`, exit on the ground at
`(0.95, 0.86)`, the two fallback pickups, and no enemies. -/
theorem c9_empty_detections (w h : ℚ) :
    (buildLevel { image := { w := w, h := h }, detections := [] }).objects =
      [groundSceneObject] ∧
    (buildLevel { image := { w := w, h := h }, detections := [] }).spawns.player =
      { x := 0.08, y := 0.86 } ∧
    (buildLevel { image := { w := w, h := h }, detections := [] }).spawns.exit =
      { x := 0.95, y := 0.86 } ∧
    groundSceneObject.bounds_normalized.x ≤
      (buildLevel { image := { w := w, h := h }, detections := [] }).spawns.exit.x ∧
    (buildLevel { image := { w := w, h := h }, detections := [] }).spawns.exit.x ≤
      groundSceneObject.bounds_normalized.x + groundSceneObject.bounds_normalized.w ∧
    (buildLevel { image := { w := w, h := h }, detections := [] }).spawns.exit.y =
      groundSceneObject.bounds_normalized.y - ENTITY_OFFSET_Y ∧
    (buildLevel { image := { w := w, h := h }, detections := [] }).spawns.pickups =
      [{ x := 0.3, y := 0.86, type := "coin" }, { x := 0.5, y := 0.86, type := "coin" }] ∧
    (buildLevel { image := { w := w, h := h }, detections := [] }).spawns.enemies = [] := by
  have hobj : objectsOf [] (finalPlatforms []) = [groundSceneObject] := by
    with_unfolding_all decide
  have hplayer : playerSpawnOf (finalPlatforms []) = { x := 0.08, y := 0.86 } := by
    with_unfolding_all decide
  have hexit : exitSpawnOf (finalPlatforms []) = { x := 0.95, y := 0.86 } := by
    with_unfolding_all decide
  have hpick : pickupsOf (finalPlatforms []) =
      [{ x := 0.3, y := 0.86, type := "coin" }, { x := 0.5, y := 0.86, type := "coin" }] := by
    with_unfolding_all decide
  have henem : enemiesOf (finalPlatforms []) = [] := by
    with_unfolding_all decide
  refine ⟨?_, ?_, ?_, ?_, ?_, ?_, ?_, ?_⟩ <;>
    simp only [buildLevel, hobj, hplayer, hexit, hpick, henem]
  · norm_num [groundSceneObject]
  · norm_num [groundSceneObject]
  · norm_num [groundSceneObject, ENTITY_OFFSET_Y]

/-- The claim of C3 fails on `highShelfInput`: the exit is clamped to
`x = 0.7`, which lies on no platform at the exit's height. -/
theorem c3_counterexample :
    ¬ ∃ o ∈ (buildLevel highShelfInput).objects, o.type = ObjType.platform ∧
      (buildLevel highShelfInput).spawns.exit.y =
        o.bounds_normalized.y - ENTITY_OFFSET_Y ∧
      o.bounds_normalized.x ≤ (buildLevel highShelfInput).spawns.exit.x ∧
      (buildLevel highShelfInput).spawns.exit.x ≤
        o.bounds_normalized.x + o.bounds_normalized.w := by
  with_unfolding_all decide

/-- The claim of C5 fails on `highShelfInput`: the exit spawn's `y` is
`0.05 - 0.06 = -0.01 < 0`. -/
theorem c5_counterexample :
    (buildLevel highShelfInput).spawns.exit.y < 0 := by
  with_unfolding_all decide

/-- The claim of C4 fails on `sixFoodInput`: six food detections yield only
five collectible scene objects, so one food detection yields none. -/
theorem c4_counterexample :
    ((buildLevel sixFoodInput).objects.filter
        (fun o => o.type == ObjType.collectible)).length = 5 ∧
    (sixFoodInput.detections.filter
        (fun d => d.category == DCategory.food)).length = 6 := by
  with_unfolding_all decide

end RealityJump

namespace RealityJump

theorem mapFrom_length {α β : Type} (f : Nat → α → β) (n : Nat) (l : List α) :
    (mapFrom f n l).length = l.length := by
  induction l generalizing n with
  | nil => rfl
  | cons a as ih => simp [mapFrom, ih]

theorem mapFrom_get? {α β : Type} (f : Nat → α → β) (n i : Nat) (l : List α) :
    (mapFrom f n l).get? i = (l.get? i).map (f (n + i)) := by
  induction l generalizing n i with
  | nil => simp [mapFrom]
  | cons a as ih =>
    cases i with
    | zero => simp [mapFrom]
    | succ j =>
      simp only [mapFrom, List.get?_cons_succ]
      rw [show n + (j + 1) = n + 1 + j by omega]
      exact ih (n + 1) j

theorem mem_mapFrom {α β : Type} {f : Nat → α → β} {n : Nat} {l : List α} {b : β}
    (h : b ∈ mapFrom f n l) : ∃ k a, a ∈ l ∧ b = f k a := by
  induction l generalizing n with
  | nil => simp [mapFrom] at h
  | cons a as ih =>
    rcases List.mem_cons.mp h with h | h
    · exact ⟨n, a, by simp, h⟩
    · rcases ih h with ⟨k, a', ha, hb⟩
      exact ⟨k, a', by simp [ha], hb⟩

theorem mapFrom_map_proj {α β γ : Type} (f : Nat → α → β) (g : β → γ) (g' : α → γ)
    (hg : ∀ k a, g (f k a) = g' a) (n : Nat) (l : List α) :
    (mapFrom f n l).map g = l.map g' := by
  induction l generalizing n with
  | nil => rfl
  | cons a as ih => simp [mapFrom, hg, ih]

theorem setTrueAnchor_idem (o : SceneObject) :
    setTrueAnchor (setTrueAnchor o) = setTrueAnchor o := rfl

theorem setAnchorTrue_get? (l : List SceneObject) (j i : Nat) :
    (setAnchorTrue l j).get? i =
      if i = j then (l.get? i).map setTrueAnchor else l.get? i := by
  induction l generalizing i j with
  | nil => cases j <;> simp [setAnchorTrue]
  | cons o os ih =>
    cases j with
    | zero =>
      cases i with
      | zero => simp [setAnchorTrue]
      | succ i' => simp [setAnchorTrue]
    | succ j' =>
      cases i with
      | zero => simp [setAnchorTrue]
      | succ i' =>
        have := ih j' i'
        simpa [setAnchorTrue, Nat.succ_inj] using this

theorem markAnchors_get? (idxs : List Nat) (l : List SceneObject) (i : Nat) :
    (markAnchors l idxs).get? i =
      if i ∈ idxs then (l.get? i).map setTrueAnchor else l.get? i := by
  induction idxs generalizing l with
  | nil => simp [markAnchors]
  | cons j rest ih =>
    show (markAnchors (setAnchorTrue l j) rest).get? i = _
    rw [ih, setAnchorTrue_get?]
    by_cases h2 : i = j
    · subst h2
      by_cases h1 : i ∈ rest
      · rw [if_pos h1, if_pos rfl, if_pos (List.mem_cons_self i rest)]
        cases l.get? i <;> rfl
      · rw [if_neg h1, if_pos rfl, if_pos (List.mem_cons_self i rest)]
    · by_cases h1 : i ∈ rest
      · rw [if_pos h1, if_neg h2, if_pos (List.mem_cons_of_mem j h1)]
      · rw [if_neg h1, if_neg h2, if_neg (by simp [List.mem_cons, h2, h1])]

theorem setAnchorTrue_map_proj {γ : Type} (g : SceneObject → γ)
    (hg : ∀ o, g (setTrueAnchor o) = g o) (l : List SceneObject) (j : Nat) :
    (setAnchorTrue l j).map g = l.map g := by
  induction l generalizing j with
  | nil => rfl
  | cons o os ih =>
    cases j with
    | zero => simp [setAnchorTrue, hg]
    | succ j' => simp [setAnchorTrue, ih]

theorem markAnchors_map_proj {γ : Type} (g : SceneObject → γ)
    (hg : ∀ o, g (setTrueAnchor o) = g o) (l : List SceneObject) (idxs : List Nat) :
    (markAnchors l idxs).map g = l.map g := by
  induction idxs generalizing l with
  | nil => rfl
  | cons j rest ih =>
    show (markAnchors (setAnchorTrue l j) rest).map g = _
    rw [ih, setAnchorTrue_map_proj g hg]

theorem markAnchors_length (l : List SceneObject) (idxs : List Nat) :
    (markAnchors l idxs).length = l.length := by
  have h := markAnchors_map_proj (fun o => o.label) (fun _ => rfl) l idxs
  calc (markAnchors l idxs).length
      = ((markAnchors l idxs).map (fun o => o.label)).length := (List.length_map _ _).symm
    _ = (l.map (fun o => o.label)).length := by rw [h]
    _ = l.length := List.length_map _ _

theorem mem_setAnchorTrue {o : SceneObject} {l : List SceneObject} {j : Nat}
    (h : o ∈ setAnchorTrue l j) : ∃ o' ∈ l, o = o' ∨ o = setTrueAnchor o' := by
  induction l generalizing j with
  | nil => simp [setAnchorTrue] at h
  | cons o0 os ih =>
    cases j with
    | zero =>
      rcases List.mem_cons.mp h with h | h
      · exact ⟨o0, by simp, Or.inr h⟩
      · exact ⟨o, by simp [h], Or.inl rfl⟩
    | succ j' =>
      rcases List.mem_cons.mp h with h | h
      · exact ⟨o0, by simp, Or.inl h⟩
      · rcases ih h with ⟨o', ho', hor⟩
        exact ⟨o', by simp [ho'], hor⟩

theorem mem_markAnchors {o : SceneObject} {l : List SceneObject} {idxs : List Nat}
    (h : o ∈ markAnchors l idxs) : ∃ o' ∈ l, o = o' ∨ o = setTrueAnchor o' := by
  induction idxs generalizing l with
  | nil => exact ⟨o, h, Or.inl rfl⟩
  | cons j rest ih =>
    rcases ih h with ⟨o', ho', hor⟩
    rcases mem_setAnchorTrue ho' with ⟨o'', ho'', hor'⟩
    refine ⟨o'', ho'', ?_⟩
    rcases hor with h1 | h1 <;> rcases hor' with h2 | h2
    · exact Or.inl (h1.trans h2)
    · rw [h1, h2]
      exact Or.inr rfl
    · rw [h1, h2]
      exact Or.inr rfl
    · rw [h1, h2, setTrueAnchor_idem]
      exact Or.inr rfl

theorem objectsOf_mem {dets : List Detection} {ps : List PlatformCandidate}
    {o : SceneObject} (h : o ∈ objectsOf dets ps) :
    (∃ k p, p ∈ ps ∧
      (o = mkPlatformObject k p ∨ o = setTrueAnchor (mkPlatformObject k p))) ∨
    (∃ k d, d ∈ (obstacleDetections dets).take 4 ∧ o = mkObstacleObject k d) ∨
    (∃ k d, d ∈ (collectibleDetections dets).take 5 ∧ o = mkCollectibleObject k d) := by
  simp only [objectsOf] at h
  rcases List.mem_append.mp h with h | h
  · rcases List.mem_append.mp h with h | h
    · left
      rcases mem_markAnchors h with ⟨o', ho', hor⟩
      rcases mem_mapFrom ho' with ⟨k, p, hp, hb⟩
      subst hb
      exact ⟨k, p, hp, hor⟩
    · right
      left
      rcases mem_mapFrom h with ⟨k, d, hd, hb⟩
      exact ⟨k, d, hd, hb⟩
  · right
    right
    rcases mem_mapFrom h with ⟨k, d, hd, hb⟩
    exact ⟨k, d, hd, hb⟩

/-- C10: every platform scene object is emitted with `surface_type` equal to
`solid`; the `soft` alternative is never produced. -/
theorem c10_surface_solid (input : DetectionResponse) :
    ∀ o ∈ (buildLevel input).objects, o.type = ObjType.platform →
      o.surface_type = some SurfaceKind.solid := by
  intro o ho htype
  rw [buildLevel_objects] at ho
  rcases objectsOf_mem ho with ⟨k, p, _, hor⟩ | ⟨k, d, _, rfl⟩ | ⟨k, d, _, rfl⟩
  · rcases hor with rfl | rfl
    · show some (if p.category = DCategory.furniture then SurfaceKind.solid
        else SurfaceKind.solid) = _
      simp
    · show some (if p.category = DCategory.furniture then SurfaceKind.solid
        else SurfaceKind.solid) = _
      simp
  · exact absurd htype (by simp [mkObstacleObject])
  · exact absurd htype (by simp [mkCollectibleObject])

/-- Witness for C10 at the empty input: the ground scene object is in the
output, is a platform, and carries a solid surface. -/
theorem c10_witness :
    groundSceneObject ∈ (buildLevel emptyInput).objects ∧
    groundSceneObject.type = ObjType.platform ∧
    groundSceneObject.surface_type = some SurfaceKind.solid := by
  have hmem : groundSceneObject ∈ (buildLevel emptyInput).objects := by
    with_unfolding_all decide
  have htype : groundSceneObject.type = ObjType.platform := rfl
  exact ⟨hmem, htype, c10_surface_solid emptyInput groundSceneObject hmem htype⟩

end RealityJump

namespace RealityJump

theorem repairScan_none_iff (ps : List PlatformCandidate) :
    repairScan ps = none ↔ List.Chain' pairOk ps := by
  induction ps with
  | nil => simp [repairScan]
  | cons lower rest ih =>
    cases rest with
    | nil => simp [repairScan]
    | cons upper rest2 =>
      rw [List.chain'_cons]
      unfold repairScan
      by_cases h1 : lower.bounds.y - upper.bounds.y > MAX_JUMP_HEIGHT
      · rw [if_pos h1]
        constructor
        · intro h
          exact absurd h (by simp)
        · rintro ⟨⟨hv, _⟩, _⟩
          exact ((not_le.mpr h1) hv).elim
      · rw [if_neg h1]
        by_cases h2 : horizontalGap lower.bounds upper.bounds > MAX_HORIZONTAL_REACH
        · rw [if_pos h2]
          constructor
          · intro h
            exact absurd h (by simp)
          · rintro ⟨⟨_, hh⟩, _⟩
            exact ((not_le.mpr h2) hh).elim
        · rw [if_neg h2]
          cases h3 : repairScan (upper :: rest2) with
          | some r =>
            constructor
            · intro h
              exact absurd h (by simp)
            · rintro ⟨_, hch⟩
              have := ih.mpr hch
              rw [this] at h3
              exact absurd h3 (by simp)
          | none =>
            constructor
            · intro _
              exact ⟨⟨not_lt.mp h1, not_lt.mp h2⟩, ih.mp h3⟩
            · intro _
              rfl

theorem repairScan_some_ex {ps qs : List PlatformCandidate}
    (h : repairScan ps = some qs) :
    ∃ pre lower upper post b,
      ps = pre ++ lower :: upper :: post ∧
      qs = pre ++ lower :: b :: upper :: post ∧
      (b = mkBridge lower upper ∨ b = mkSteppingStone lower upper) := by
  induction ps generalizing qs with
  | nil => simp [repairScan] at h
  | cons lower rest ih =>
    cases rest with
    | nil => simp [repairScan] at h
    | cons upper rest2 =>
      unfold repairScan at h
      by_cases h1 : lower.bounds.y - upper.bounds.y > MAX_JUMP_HEIGHT
      · rw [if_pos h1] at h
        refine ⟨[], lower, upper, rest2, mkBridge lower upper, rfl, ?_, Or.inl rfl⟩
        simpa using h.symm
      · rw [if_neg h1] at h
        by_cases h2 : horizontalGap lower.bounds upper.bounds > MAX_HORIZONTAL_REACH
        · rw [if_pos h2] at h
          refine ⟨[], lower, upper, rest2, mkSteppingStone lower upper, rfl, ?_,
            Or.inr rfl⟩
          simpa using h.symm
        · rw [if_neg h2] at h
          cases h3 : repairScan (upper :: rest2) with
          | none =>
            rw [h3] at h
            simp at h
          | some r =>
            rw [h3] at h
            simp only [Option.some.injEq] at h
            rcases ih h3 with ⟨pre, l', u', post, b, hps, hqs, hb⟩
            refine ⟨lower :: pre, l', u', post, b, ?_, ?_, hb⟩
            · simp [← hps]
            · simp [← h, hqs]

end RealityJump

namespace RealityJump

theorem goodCand_ground : goodCand groundCandidate :=
  ⟨fun _ => rfl,
   fun hf => absurd hf (by simp [groundCandidate]),
   by norm_num [groundCandidate],
   by norm_num [groundCandidate],
   by simp [groundCandidate]⟩

theorem goodCand_detection (det : Detection)
    (hfood : ¬ det.category = DCategory.food) :
    goodCand (detectionCandidate det) := by
  have hy : (detectionCandidate det).bounds.y =
      clamp det.bounds_normalized.y 0.05 0.90 := rfl
  have h90 : clamp det.bounds_normalized.y 0.05 0.90 ≤ 0.90 :=
    clamp_le _ (by norm_num)
  have h05 : (0.05 : ℚ) ≤ clamp det.bounds_normalized.y 0.05 0.90 :=
    le_clamp _ _ _
  refine ⟨fun hg => absurd hg (by simp [detectionCandidate]), fun _ => ?_, ?_, ?_, ?_⟩
  · rw [hy]
    linarith
  · rw [hy]
    exact h05
  · rw [hy]
    linarith
  · simpa [detectionCandidate] using hfood

theorem ground_not_mem_platformCandidates (dets : List Detection) :
    groundCandidate ∉ platformCandidates dets := by
  intro h
  simp only [platformCandidates, List.mem_map] at h
  rcases h with ⟨det, _, heq⟩
  have : (detectionCandidate det).isGround = groundCandidate.isGround := by rw [heq]
  simp [detectionCandidate, groundCandidate] at this

theorem goodList_start (dets : List Detection) :
    goodList (platformCandidates dets ++ [groundCandidate]) := by
  refine ⟨?_, by simp, ?_⟩
  · intro p hp
    rcases List.mem_append.mp hp with hp | hp
    · simp only [platformCandidates, List.mem_map] at hp
      rcases hp with ⟨det, hdet, rfl⟩
      have hcond := (List.mem_filter.mp hdet).2
      have hnf : ¬ det.category = DCategory.food := by
        have := ((Bool.and_eq_true _ _).mp hcond).1
        simpa [bne_iff_ne] using this
      exact goodCand_detection det hnf
    · have hpe : p = groundCandidate := by simpa using hp
      rw [hpe]
      exact goodCand_ground
  · rw [List.count_append]
    have h0 : (platformCandidates dets).count groundCandidate = 0 :=
      List.count_eq_zero.mpr (ground_not_mem_platformCandidates dets)
    simp [h0]

theorem goodList_perm {ps qs : List PlatformCandidate} (h : ps.Perm qs)
    (hg : goodList ps) : goodList qs := by
  refine ⟨fun p hp => hg.1 p (h.mem_iff.mpr hp), h.subset hg.2.1, ?_⟩
  rw [← h.count_eq]
  exact hg.2.2

theorem sortDescY_perm (ps : List PlatformCandidate) : (sortDescY ps).Perm ps :=
  List.perm_insertionSort _ _

theorem sortDescY_sorted (ps : List PlatformCandidate) :
    List.Sorted leY (sortDescY ps) :=
  List.sorted_insertionSort _ _

theorem sorted_good_head {ps : List PlatformCandidate} (hs : List.Sorted leY ps)
    (hg : goodList ps) : ∃ tl, ps = groundCandidate :: tl := by
  rcases hg with ⟨hall, hmem, _⟩
  cases ps with
  | nil => cases hmem
  | cons h0 tl =>
    refine ⟨tl, ?_⟩
    rcases List.mem_cons.mp hmem with he | hm
    · rw [he]
    · have hrel : leY h0 groundCandidate := (List.sorted_cons.mp hs).1 _ hm
      have h92 : (0.92 : ℚ) ≤ h0.bounds.y := hrel
      have hcand := hall h0 (List.mem_cons_self _ _)
      have heq : h0.bounds.y = 0.92 := le_antisymm hcand.2.2.2.1 h92
      cases hgr : h0.isGround with
      | true => rw [hcand.1 hgr]
      | false => exact absurd heq (ne_of_lt (hcand.2.1 hgr))

theorem dedupAux_append (acc l : List PlatformCandidate) :
    ∃ r, dedupAux acc l = acc ++ r ∧ r.Sublist l := by
  induction l generalizing acc with
  | nil => exact ⟨[], by simp [dedupAux], List.nil_sublist _⟩
  | cons c cs ih =>
    by_cases h : acc.any (fun e => tooClose e c) = true
    · rcases ih acc with ⟨r, hr, hsub⟩
      refine ⟨r, ?_, hsub.cons c⟩
      simp only [dedupAux]
      rw [if_pos h]
      exact hr
    · rcases ih (acc ++ [c]) with ⟨r, hr, hsub⟩
      refine ⟨c :: r, ?_, hsub.cons₂ c⟩
      simp only [dedupAux]
      rw [if_neg h, hr, List.append_assoc]
      rfl

theorem dedup_cons (g : PlatformCandidate) (tl : List PlatformCandidate) :
    ∃ r, dedup (g :: tl) = g :: r ∧ r.Sublist tl := by
  rcases dedupAux_append [g] tl with ⟨r, hr, hsub⟩
  refine ⟨r, ?_, hsub⟩
  show dedupAux [] (g :: tl) = g :: r
  simp only [dedupAux]
  rw [if_neg (by simp)]
  simpa using hr

end RealityJump

namespace RealityJump

theorem repairScan_good {ps qs : List PlatformCandidate}
    (h : repairScan ps = some qs) (hg : goodList ps) : goodList qs := by
  rcases repairScan_some_ex h with ⟨pre, l, u, post, b, hps, hqs, hb⟩
  subst hps
  have hgl := hg.1 l (by simp)
  have hgu := hg.1 u (by simp)
  have hnotboth : ¬ (l = groundCandidate ∧ u = groundCandidate) := by
    rintro ⟨rfl, rfl⟩
    have hcnt := hg.2.2
    have h2 : 2 ≤ (pre ++ groundCandidate :: groundCandidate :: post).count
        groundCandidate := by
      rw [List.count_append, List.count_cons_self, List.count_cons_self]
      omega
    omega
  have hperm : qs.Perm (b :: (pre ++ l :: u :: post)) := by
    rw [hqs]
    have h1 : pre ++ l :: b :: u :: post = (pre ++ [l]) ++ b :: (u :: post) := by simp
    rw [h1]
    have h2 : ((pre ++ [l]) ++ b :: (u :: post)).Perm
        (b :: ((pre ++ [l]) ++ (u :: post))) := List.perm_middle
    simpa using h2
  have hby : b.bounds.y = (l.bounds.y + u.bounds.y) / 2 := by
    rcases hb with rfl | rfl <;> rfl
  have hbg : b.isGround = false := by
    rcases hb with rfl | rfl <;> rfl
  have hbc : b.category = DCategory.other := by
    rcases hb with rfl | rfl <;> rfl
  have hlt : l.bounds.y < 0.92 ∨ u.bounds.y < 0.92 := by
    by_contra hno
    push_neg at hno
    have hl92 : l.bounds.y = 0.92 := le_antisymm hgl.2.2.2.1 hno.1
    have hu92 : u.bounds.y = 0.92 := le_antisymm hgu.2.2.2.1 hno.2
    have hlg : l = groundCandidate := by
      cases hgr : l.isGround with
      | true => exact hgl.1 hgr
      | false => exact absurd hl92 (ne_of_lt (hgl.2.1 hgr))
    have hug : u = groundCandidate := by
      cases hgr : u.isGround with
      | true => exact hgu.1 hgr
      | false => exact absurd hu92 (ne_of_lt (hgu.2.1 hgr))
    exact hnotboth ⟨hlg, hug⟩
  have hgb : goodCand b := by
    refine ⟨fun hgr => ?_, fun _ => ?_, ?_, ?_, ?_⟩
    · rw [hbg] at hgr
      cases hgr
    · rw [hby]
      rcases hlt with h' | h'
      · linarith [hgu.2.2.2.1]
      · linarith [hgl.2.2.2.1]
    · rw [hby]
      linarith [hgl.2.2.1, hgu.2.2.1]
    · rw [hby]
      linarith [hgl.2.2.2.1, hgu.2.2.2.1]
    · rw [hbc]
      simp
  have hbne : b ≠ groundCandidate := by
    intro he
    rw [he] at hbg
    simp [groundCandidate] at hbg
  refine goodList_perm hperm.symm ⟨?_, ?_, ?_⟩
  · intro p hp
    rcases List.mem_cons.mp hp with rfl | hp
    · exact hgb
    · exact hg.1 p hp
  · exact List.mem_cons_of_mem _ hg.2.1
  · rw [List.count_cons_of_ne (Ne.symm hbne)]
    exact hg.2.2

theorem repairLoop_good (n : Nat) (ps : List PlatformCandidate)
    (hg : goodList ps) (hs : List.Sorted leY ps) :
    goodList (repairLoop n ps) ∧ List.Sorted leY (repairLoop n ps) := by
  induction n generalizing ps with
  | zero => exact ⟨hg, hs⟩
  | succ m ih =>
    unfold repairLoop
    cases h : repairScan ps with
    | none =>
      exact ⟨goodList_perm (sortDescY_perm ps).symm hg, sortDescY_sorted ps⟩
    | some ps2 =>
      exact ih (sortDescY ps2)
        (goodList_perm (sortDescY_perm ps2).symm (repairScan_good h hg))
        (sortDescY_sorted ps2)

theorem repairLoop_chain (n : Nat) (ps : List PlatformCandidate)
    (hs : List.Sorted leY ps) (hne : repairExhausted n ps = false) :
    List.Chain' pairOk (repairLoop n ps) := by
  induction n generalizing ps with
  | zero => simp [repairExhausted] at hne
  | succ m ih =>
    unfold repairLoop
    cases h : repairScan ps with
    | none =>
      have heq : sortDescY ps = ps := List.Sorted.insertionSort_eq hs
      rw [heq]
      exact (repairScan_none_iff ps).mp h
    | some ps2 =>
      have hne2 : repairExhausted m (sortDescY ps2) = false := by
        unfold repairExhausted at hne
        rw [h] at hne
        simpa using hne
      exact ih (sortDescY ps2) (sortDescY_sorted ps2) hne2

theorem initialPlatforms_good (dets : List Detection) :
    goodList (initialPlatforms dets) ∧ List.Sorted leY (initialPlatforms dets) := by
  have hA : goodList (platformCandidates dets ++ [groundCandidate]) :=
    goodList_start dets
  have hBg : goodList (sortDescY (platformCandidates dets ++ [groundCandidate])) :=
    goodList_perm (sortDescY_perm _).symm hA
  have hBs := sortDescY_sorted (platformCandidates dets ++ [groundCandidate])
  rcases sorted_good_head hBs hBg with ⟨tlB, hB⟩
  rcases dedup_cons groundCandidate tlB with ⟨r, hC, hrsub⟩
  have hCsub : (groundCandidate :: r).Sublist (groundCandidate :: tlB) :=
    hrsub.cons₂ _
  have hCs : List.Sorted leY (groundCandidate :: r) := by
    rw [hB] at hBs
    exact hBs.sublist hCsub
  have hCg : goodList (groundCandidate :: r) := by
    refine ⟨?_, List.mem_cons_self _ _, ?_⟩
    · intro p hp
      apply hBg.1 p
      rw [hB]
      exact hCsub.subset hp
    · have hBcount := hBg.2.2
      rw [hB, List.count_cons_self] at hBcount
      rw [List.count_cons_self]
      have := hrsub.count_le groundCandidate
      omega
  have hDdef : initialPlatforms dets =
      (groundCandidate :: r).take MAX_PLATFORMS := by
    show (dedup (sortDescY (platformCandidates dets ++ [groundCandidate]))).take
      MAX_PLATFORMS = _
    rw [hB, hC]
  have hDsub : ((groundCandidate :: r).take MAX_PLATFORMS).Sublist
      (groundCandidate :: r) := List.take_sublist _ _
  constructor
  · rw [hDdef]
    refine ⟨?_, ?_, ?_⟩
    · intro p hp
      exact hCg.1 p (hDsub.subset hp)
    · show groundCandidate ∈ (groundCandidate :: r).take 10
      simp
    · have h1 := hCg.2.2
      have h2 := hDsub.count_le groundCandidate
      omega
  · rw [hDdef]
    exact hCs.sublist hDsub

theorem finalPlatforms_good (dets : List Detection) :
    ∃ tl, finalPlatforms dets = groundCandidate :: tl ∧
      (∀ p ∈ finalPlatforms dets, goodCand p) ∧
      List.Sorted leY (finalPlatforms dets) ∧
      (finalPlatforms dets).length ≤ 12 := by
  obtain ⟨hIg, hIs⟩ := initialPlatforms_good dets
  have hEg : goodList (sortDescY (initialPlatforms dets)) :=
    goodList_perm (sortDescY_perm _).symm hIg
  have hEs := sortDescY_sorted (initialPlatforms dets)
  obtain ⟨hFg, hFs⟩ := repairLoop_good 10 _ hEg hEs
  rcases sorted_good_head hFs hFg with ⟨tlF, hF⟩
  have hdef : finalPlatforms dets = (groundCandidate :: tlF).take 12 := by
    show (repairedPlatforms dets).take 12 = _
    rw [show repairedPlatforms dets = groundCandidate :: tlF from hF]
  have hsub : ((groundCandidate :: tlF).take 12).Sublist (groundCandidate :: tlF) :=
    List.take_sublist _ _
  refine ⟨tlF.take 11, ?_, ?_, ?_, ?_⟩
  · rw [hdef]
    rfl
  · intro p hp
    rw [hdef] at hp
    apply hFg.1 p
    rw [hF]
    exact hsub.subset hp
  · rw [hdef]
    rw [hF] at hFs
    exact hFs.sublist hsub
  · rw [hdef]
    exact List.length_take_le _ _

end RealityJump

namespace RealityJump

theorem mapFrom_platform_type (ps : List PlatformCandidate) (n : Nat) :
    ∀ o ∈ mapFrom mkPlatformObject n ps, o.type = ObjType.platform := by
  intro o ho
  rcases mem_mapFrom ho with ⟨k, p, _, rfl⟩
  rfl

theorem markAnchors_forall_type (l : List SceneObject) (idxs : List Nat)
    (h : ∀ o ∈ l, o.type = ObjType.platform) :
    ∀ o ∈ markAnchors l idxs, o.type = ObjType.platform := by
  intro o ho
  rcases mem_markAnchors ho with ⟨o', ho', hor⟩
  have ht : o.type = o'.type := by
    rcases hor with h1 | h1
    · rw [h1]
    · rw [h1]
      rfl
  rw [ht]
  exact h o' ho'

theorem objectsOf_filter_platform (dets : List Detection)
    (ps : List PlatformCandidate) :
    (objectsOf dets ps).filter (fun o => o.type == ObjType.platform) =
      markAnchors (mapFrom mkPlatformObject 0 ps) (enemyIdxs ps) := by
  simp only [objectsOf]
  rw [List.filter_append, List.filter_append]
  have h1 : (markAnchors (mapFrom mkPlatformObject 0 ps) (enemyIdxs ps)).filter
      (fun o => o.type == ObjType.platform) =
      markAnchors (mapFrom mkPlatformObject 0 ps) (enemyIdxs ps) := by
    rw [List.filter_eq_self]
    intro o ho
    have := markAnchors_forall_type _ _ (mapFrom_platform_type ps 0) o ho
    simp [this]
  have h2 : (mapFrom mkObstacleObject ps.length
      ((obstacleDetections dets).take 4)).filter
      (fun o => o.type == ObjType.platform) = [] := by
    rw [List.filter_eq_nil]
    intro o ho
    rcases mem_mapFrom ho with ⟨k, d, _, rfl⟩
    simp [mkObstacleObject]
  have h3 : (mapFrom mkCollectibleObject
      (ps.length + (mapFrom mkObstacleObject ps.length
        ((obstacleDetections dets).take 4)).length)
      ((collectibleDetections dets).take 5)).filter
      (fun o => o.type == ObjType.platform) = [] := by
    rw [List.filter_eq_nil]
    intro o ho
    rcases mem_mapFrom ho with ⟨k, d, _, rfl⟩
    simp [mkCollectibleObject]
  rw [h1, h2, h3, List.append_nil, List.append_nil]

theorem objectsOf_platform_bounds (dets : List Detection)
    (ps : List PlatformCandidate) :
    ((objectsOf dets ps).filter (fun o => o.type == ObjType.platform)).map
      (fun o => o.bounds_normalized) = ps.map (fun p => p.bounds) := by
  rw [objectsOf_filter_platform]
  rw [markAnchors_map_proj (fun o => o.bounds_normalized) (fun o => rfl)]
  exact mapFrom_map_proj mkPlatformObject (fun o => o.bounds_normalized)
    (fun p => p.bounds) (fun k p => rfl) 0 ps

theorem objectsOf_platform_length (dets : List Detection)
    (ps : List PlatformCandidate) :
    ((objectsOf dets ps).filter
      (fun o => o.type == ObjType.platform)).length = ps.length := by
  have := congrArg List.length (objectsOf_platform_bounds dets ps)
  simpa using this

/-- C2: the emitted scene always holds between 1 and 12 platform objects,
and the synthetic ground platform is always among them. -/
theorem c2_platform_count (input : DetectionResponse) :
    1 ≤ ((buildLevel input).objects.filter
        (fun o => o.type == ObjType.platform)).length ∧
    ((buildLevel input).objects.filter
        (fun o => o.type == ObjType.platform)).length ≤ 12 ∧
    ∃ o ∈ (buildLevel input).objects.filter
        (fun o => o.type == ObjType.platform),
      o.label = "ground" ∧ o.bounds_normalized = groundCandidate.bounds := by
  rw [buildLevel_objects]
  rcases finalPlatforms_good input.detections with ⟨tl, hF, _, _, hlen⟩
  have hlen' := objectsOf_platform_length input.detections
    (finalPlatforms input.detections)
  refine ⟨?_, ?_, ?_⟩
  · rw [hlen', hF]
    simp
  · rw [hlen']
    exact hlen
  · rw [objectsOf_filter_platform]
    have hget : (mapFrom mkPlatformObject 0 (finalPlatforms input.detections)).get? 0 =
        some (mkPlatformObject 0 groundCandidate) := by
      rw [mapFrom_get?, hF]
      rfl
    have hm := markAnchors_get? (enemyIdxs (finalPlatforms input.detections))
      (mapFrom mkPlatformObject 0 (finalPlatforms input.detections)) 0
    by_cases h0 : 0 ∈ enemyIdxs (finalPlatforms input.detections)
    · rw [if_pos h0, hget] at hm
      exact ⟨setTrueAnchor (mkPlatformObject 0 groundCandidate),
        List.get?_mem hm, rfl, rfl⟩
    · rw [if_neg h0, hget] at hm
      exact ⟨mkPlatformObject 0 groundCandidate, List.get?_mem hm, rfl, rfl⟩

end RealityJump

namespace RealityJump

theorem groundPlatOf_final (dets : List Detection) :
    groundPlatOf (finalPlatforms dets) = groundCandidate := by
  rcases finalPlatforms_good dets with ⟨tl, hF, _, _, _⟩
  unfold groundPlatOf
  rw [hF, List.find?_cons_of_pos _ (by rfl)]
  rfl

theorem playerSpawn_final (dets : List Detection) :
    playerSpawnOf (finalPlatforms dets) =
      { x := 0.08, y := groundCandidate.bounds.y - ENTITY_OFFSET_Y } := by
  unfold playerSpawnOf
  rw [groundPlatOf_final]

theorem highestPlatOf_spec (ps : List PlatformCandidate) (hne : ps ≠ []) :
    highestPlatOf ps ∈ ps ∧
    ∀ p ∈ ps, (highestPlatOf ps).bounds.y ≤ p.bounds.y := by
  have hperm := List.perm_insertionSort leYAsc ps
  have hsor := List.sorted_insertionSort leYAsc ps
  cases hsort_eq : List.insertionSort leYAsc ps with
  | nil =>
    exfalso
    apply hne
    have hl := hperm.length_eq
    rw [hsort_eq] at hl
    exact List.length_eq_zero.mp hl.symm
  | cons h0 t =>
    have hh : highestPlatOf ps = h0 := by
      unfold highestPlatOf
      rw [hsort_eq]
      rfl
    constructor
    · rw [hh]
      apply hperm.subset
      rw [hsort_eq]
      exact List.mem_cons_self _ _
    · intro p hp
      rw [hh]
      have hps : p ∈ h0 :: t := by
        rw [← hsort_eq]
        exact hperm.mem_iff.mpr hp
      rcases List.mem_cons.mp hps with rfl | hpt
      · exact le_refl _
      · exact (List.sorted_cons.mp (hsort_eq ▸ hsor)).1 p hpt

theorem exists_platform_object (dets : List Detection)
    (ps : List PlatformCandidate) (p : PlatformCandidate) (hp : p ∈ ps) :
    ∃ o ∈ objectsOf dets ps, o.type = ObjType.platform ∧
      o.bounds_normalized = p.bounds := by
  obtain ⟨i, hi⟩ := List.mem_iff_get?.mp hp
  have hplat := mapFrom_get? mkPlatformObject 0 i ps
  rw [hi] at hplat
  have hm := markAnchors_get? (enemyIdxs ps) (mapFrom mkPlatformObject 0 ps) i
  have hmem_of : ∀ o, (markAnchors (mapFrom mkPlatformObject 0 ps)
      (enemyIdxs ps)).get? i = some o → o ∈ objectsOf dets ps := by
    intro o h
    simp only [objectsOf]
    exact List.mem_append.mpr (Or.inl (List.mem_append.mpr
      (Or.inl (List.get?_mem h))))
  by_cases h0 : i ∈ enemyIdxs ps
  · rw [if_pos h0, hplat] at hm
    exact ⟨setTrueAnchor (mkPlatformObject (0 + i) p), hmem_of _ hm, rfl, rfl⟩
  · rw [if_neg h0, hplat] at hm
    exact ⟨mkPlatformObject (0 + i) p, hmem_of _ hm, rfl, rfl⟩

theorem platform_object_bounds {dets : List Detection}
    {ps : List PlatformCandidate} {o : SceneObject} (ho : o ∈ objectsOf dets ps)
    (ht : o.type = ObjType.platform) :
    ∃ p ∈ ps, o.bounds_normalized = p.bounds := by
  rcases objectsOf_mem ho with ⟨k, p, hp, hor⟩ | ⟨k, d, _, rfl⟩ | ⟨k, d, _, rfl⟩
  · rcases hor with rfl | rfl <;> exact ⟨p, hp, rfl⟩
  · exact absurd ht (by simp [mkObstacleObject])
  · exact absurd ht (by simp [mkCollectibleObject])

/-- Amended C3: the player spawn always lies on a platform object (the
ground) with the fixed `0.06` clearance; the exit has `y` `0.06` above the
highest platform and `x = clamp(x + w - 0.05, 0.7, 0.95)` computed from that
platform — but that clamped `x` need not lie within the platform's span. -/
theorem c3_spawn_placement (input : DetectionResponse) :
    (∃ o ∈ (buildLevel input).objects, o.type = ObjType.platform ∧
      (buildLevel input).spawns.player.y =
        o.bounds_normalized.y - ENTITY_OFFSET_Y ∧
      o.bounds_normalized.x ≤ (buildLevel input).spawns.player.x ∧
      (buildLevel input).spawns.player.x ≤
        o.bounds_normalized.x + o.bounds_normalized.w) ∧
    (∃ o ∈ (buildLevel input).objects, o.type = ObjType.platform ∧
      (∀ o' ∈ (buildLevel input).objects, o'.type = ObjType.platform →
        o.bounds_normalized.y ≤ o'.bounds_normalized.y) ∧
      (buildLevel input).spawns.exit.y =
        o.bounds_normalized.y - ENTITY_OFFSET_Y ∧
      (buildLevel input).spawns.exit.x =
        clamp (o.bounds_normalized.x + o.bounds_normalized.w - 0.05) 0.7 0.95) := by
  obtain ⟨tl, hF, hall, hsort, _⟩ := finalPlatforms_good input.detections
  have hg_mem : groundCandidate ∈ finalPlatforms input.detections := by
    rw [hF]
    exact List.mem_cons_self _ _
  have hne : finalPlatforms input.detections ≠ [] := by
    rw [hF]
    simp
  have hplayer : (buildLevel input).spawns.player =
      { x := 0.08, y := groundCandidate.bounds.y - ENTITY_OFFSET_Y } := by
    rw [buildLevel_player, playerSpawn_final]
  obtain ⟨og, hog, hogt, hogb⟩ :=
    exists_platform_object input.detections _ _ hg_mem
  obtain ⟨hhp_mem, hhp_min⟩ := highestPlatOf_spec _ hne
  obtain ⟨oe, hoe, hoet, hoeb⟩ :=
    exists_platform_object input.detections _ _ hhp_mem
  have hexit : (buildLevel input).spawns.exit =
      { x := clamp ((highestPlatOf (finalPlatforms input.detections)).bounds.x +
          (highestPlatOf (finalPlatforms input.detections)).bounds.w - 0.05)
          0.7 0.95
        y := (highestPlatOf (finalPlatforms input.detections)).bounds.y -
          ENTITY_OFFSET_Y } := by
    rw [buildLevel_exit]
    rfl
  constructor
  · refine ⟨og, ?_, hogt, ?_, ?_, ?_⟩
    · rw [buildLevel_objects]
      exact hog
    · rw [hplayer, hogb]
    · rw [hplayer, hogb]
      norm_num [groundCandidate]
    · rw [hplayer, hogb]
      norm_num [groundCandidate]
  · refine ⟨oe, ?_, hoet, ?_, ?_, ?_⟩
    · rw [buildLevel_objects]
      exact hoe
    · intro o' ho' ht'
      rw [buildLevel_objects] at ho'
      obtain ⟨p', hp', hb'⟩ := platform_object_bounds ho' ht'
      rw [hoeb, hb']
      exact hhp_min p' hp'
    · rw [hexit, hoeb]
    · rw [hexit, hoeb]

end RealityJump

namespace RealityJump

/-- C1: when the repair loop converges within its 10-iteration cap, the
emitted platform list (which is what the platform scene objects' bounds are
drawn from, in order) is sorted bottom-to-top by descending `y` and every
consecutive pair respects both traversal constraints. -/
theorem c1_reachability (input : DetectionResponse)
    (h : repairConverged input.detections = true) :
    ((buildLevel input).objects.filter
        (fun o => o.type == ObjType.platform)).map (fun o => o.bounds_normalized) =
      (finalPlatforms input.detections).map (fun p => p.bounds) ∧
    List.Sorted leY (finalPlatforms input.detections) ∧
    List.Chain' pairOk (finalPlatforms input.detections) := by
  refine ⟨?_, ?_, ?_⟩
  · rw [buildLevel_objects]
    exact objectsOf_platform_bounds _ _
  · rcases finalPlatforms_good input.detections with ⟨tl, _, _, hsort, _⟩
    exact hsort
  · have h' : repairExhausted 10 (sortDescY (initialPlatforms input.detections)) =
        false := by
      simpa [repairConverged] using h
    have hch := repairLoop_chain 10 (sortDescY (initialPlatforms input.detections))
      (sortDescY_sorted _) h'
    show List.Chain' pairOk ((repairedPlatforms input.detections).take 12)
    exact hch.take 12

/-- Witness for C1: the empty input converges immediately and satisfies the
conclusion. -/
theorem c1_witness :
    repairConverged emptyInput.detections = true ∧
    (((buildLevel emptyInput).objects.filter
        (fun o => o.type == ObjType.platform)).map (fun o => o.bounds_normalized) =
      (finalPlatforms emptyInput.detections).map (fun p => p.bounds) ∧
    List.Sorted leY (finalPlatforms emptyInput.detections) ∧
    List.Chain' pairOk (finalPlatforms emptyInput.detections)) := by
  have h : repairConverged emptyInput.detections = true := by
    with_unfolding_all decide
  exact ⟨h, c1_reachability emptyInput h⟩

theorem clamp_range (v lo hi : ℚ) (h : lo ≤ hi) (h0 : 0 ≤ lo)
    (h1 : hi ≤ 1) : 0 ≤ clamp v lo hi ∧ clamp v lo hi ≤ 1 :=
  ⟨le_trans h0 (le_clamp _ _ _), le_trans (clamp_le _ h) h1⟩

theorem yoff_range {y : ℚ} (h1 : 0.05 ≤ y) (h2 : y ≤ 0.92) :
    -0.01 ≤ y - ENTITY_OFFSET_Y ∧ y - ENTITY_OFFSET_Y ≤ 1 := by
  norm_num [ENTITY_OFFSET_Y] at h1 h2 ⊢
  constructor <;> linarith

theorem pickups_mem_cases (ps : List PlatformCandidate) (pk : PickupSpawn)
    (hmem : pk ∈ pickupsOf ps) :
    (∃ p ∈ ps, pk.x = clamp (p.bounds.x + p.bounds.w / 2) 0.05 0.95 ∧
      pk.y = p.bounds.y - ENTITY_OFFSET_Y) ∨
    ((pk.x = 0.3 ∨ pk.x = 0.5) ∧
      pk.y = (groundPlatOf ps).bounds.y - ENTITY_OFFSET_Y) := by
  have hprim : ∀ q ∈ primaryPickups ps,
      ∃ p ∈ ps, q.x = clamp (p.bounds.x + p.bounds.w / 2) 0.05 0.95 ∧
        q.y = p.bounds.y - ENTITY_OFFSET_Y := by
    intro q hq
    rcases mem_mapFrom hq with ⟨k, p, hp, rfl⟩
    have hp' : p ∈ ps :=
      List.mem_of_mem_filter (List.take_subset 5 (pickupPlatformsOf ps) hp)
    exact ⟨p, hp', rfl, rfl⟩
  have hbr : ∀ q ∈ withBridgePickups ps (primaryPickups ps),
      ∃ p ∈ ps, q.x = clamp (p.bounds.x + p.bounds.w / 2) 0.05 0.95 ∧
        q.y = p.bounds.y - ENTITY_OFFSET_Y := by
    intro q hq
    unfold withBridgePickups at hq
    split at hq
    · rcases List.mem_append.mp hq with hq | hq
      · exact hprim q hq
      · rcases List.mem_map.mp hq with ⟨bp, hbp, rfl⟩
        have hbp' : bp ∈ ps := List.mem_of_mem_filter
          (List.take_subset _ (ps.filter (fun p => p.isBridge)) hbp)
        exact ⟨bp, hbp', rfl, rfl⟩
    · exact hprim q hq
  unfold pickupsOf withFallbackPickups at hmem
  split at hmem
  · rcases List.mem_append.mp hmem with hq | hq
    · exact Or.inl (hbr pk hq)
    · rcases List.mem_cons.mp hq with rfl | hq
      · exact Or.inr ⟨Or.inl rfl, rfl⟩
      · rcases List.mem_cons.mp hq with rfl | hq
        · exact Or.inr ⟨Or.inr rfl, rfl⟩
        · cases hq
  · exact Or.inl (hbr pk hmem)

/-- Amended C5: every spawn position has `x ∈ [0, 1]` and
`y ∈ [-0.01, 1]` — a platform clamped to the minimum height `y = 0.05`
places its spawns at `y = -0.01`, slightly outside the claimed `[0, 1]`. -/
theorem c5_spawn_ranges (input : DetectionResponse) :
    spawnInRange (buildLevel input).spawns.player.x
      (buildLevel input).spawns.player.y ∧
    spawnInRange (buildLevel input).spawns.exit.x
      (buildLevel input).spawns.exit.y ∧
    (∀ e ∈ (buildLevel input).spawns.enemies, spawnInRange e.x e.y) ∧
    (∀ pk ∈ (buildLevel input).spawns.pickups, spawnInRange pk.x pk.y) := by
  obtain ⟨tl, hF, hall, _, _⟩ := finalPlatforms_good input.detections
  have hne : finalPlatforms input.detections ≠ [] := by
    rw [hF]
    simp
  have hrange : ∀ p ∈ finalPlatforms input.detections,
      (0.05 : ℚ) ≤ p.bounds.y ∧ p.bounds.y ≤ 0.92 := by
    intro p hp
    exact ⟨(hall p hp).2.2.1, (hall p hp).2.2.2.1⟩
  refine ⟨?_, ?_, ?_, ?_⟩
  · rw [buildLevel_player, playerSpawn_final]
    unfold spawnInRange
    norm_num [groundCandidate, ENTITY_OFFSET_Y]
  · have hexit : exitSpawnOf (finalPlatforms input.detections) =
        { x := clamp ((highestPlatOf (finalPlatforms input.detections)).bounds.x +
            (highestPlatOf (finalPlatforms input.detections)).bounds.w - 0.05)
            0.7 0.95
          y := (highestPlatOf (finalPlatforms input.detections)).bounds.y -
            ENTITY_OFFSET_Y } := rfl
    rw [buildLevel_exit, hexit]
    have hy := hrange _ (highestPlatOf_spec _ hne).1
    have hx := clamp_range ((highestPlatOf (finalPlatforms input.detections)).bounds.x +
      (highestPlatOf (finalPlatforms input.detections)).bounds.w - 0.05)
      0.7 0.95 (by norm_num) (by norm_num) (by norm_num)
    have hyr := yoff_range hy.1 hy.2
    exact ⟨hx.1, hx.2, hyr.1, hyr.2⟩
  · intro e he
    rw [buildLevel_enemies] at he
    rcases List.mem_map.mp he with ⟨p, hp, rfl⟩
    have hp' : p ∈ finalPlatforms input.detections := List.mem_of_mem_filter
      (List.take_subset 2 ((finalPlatforms input.detections).filter enemyPred) hp)
    have hy := hrange p hp'
    have hx := clamp_range (p.bounds.x + p.bounds.w / 2)
      0.05 0.95 (by norm_num) (by norm_num) (by norm_num)
    have hyr := yoff_range hy.1 hy.2
    exact ⟨hx.1, hx.2, hyr.1, hyr.2⟩
  · intro pk hpk
    rw [buildLevel_pickups] at hpk
    rcases pickups_mem_cases _ pk hpk with ⟨p, hp, hxe, hye⟩ | ⟨hxe, hye⟩
    · have hy := hrange p hp
      have hx := clamp_range (p.bounds.x + p.bounds.w / 2)
        0.05 0.95 (by norm_num) (by norm_num) (by norm_num)
      have hyr := yoff_range hy.1 hy.2
      rw [spawnInRange, hxe, hye]
      exact ⟨hx.1, hx.2, hyr.1, hyr.2⟩
    · rw [groundPlatOf_final] at hye
      rw [spawnInRange, hye]
      rcases hxe with hxe | hxe <;> rw [hxe] <;>
        norm_num [groundCandidate, ENTITY_OFFSET_Y]

end RealityJump

namespace RealityJump

theorem objectsOf_filter_collectible (dets : List Detection)
    (ps : List PlatformCandidate) :
    (objectsOf dets ps).filter (fun o => o.type == ObjType.collectible) =
      mapFrom mkCollectibleObject
        (ps.length + (mapFrom mkObstacleObject ps.length
          ((obstacleDetections dets).take 4)).length)
        ((collectibleDetections dets).take 5) := by
  simp only [objectsOf]
  rw [List.filter_append, List.filter_append]
  have h1 : (markAnchors (mapFrom mkPlatformObject 0 ps) (enemyIdxs ps)).filter
      (fun o => o.type == ObjType.collectible) = [] := by
    rw [List.filter_eq_nil]
    intro o ho
    have := markAnchors_forall_type _ _ (mapFrom_platform_type ps 0) o ho
    simp [this]
  have h2 : (mapFrom mkObstacleObject ps.length
      ((obstacleDetections dets).take 4)).filter
      (fun o => o.type == ObjType.collectible) = [] := by
    rw [List.filter_eq_nil]
    intro o ho
    rcases mem_mapFrom ho with ⟨k, d, _, rfl⟩
    simp [mkObstacleObject]
  have h3 : (mapFrom mkCollectibleObject
      (ps.length + (mapFrom mkObstacleObject ps.length
        ((obstacleDetections dets).take 4)).length)
      ((collectibleDetections dets).take 5)).filter
      (fun o => o.type == ObjType.collectible) =
      mapFrom mkCollectibleObject
        (ps.length + (mapFrom mkObstacleObject ps.length
          ((obstacleDetections dets).take 4)).length)
        ((collectibleDetections dets).take 5) := by
    rw [List.filter_eq_self]
    intro o ho
    rcases mem_mapFrom ho with ⟨k, d, _, rfl⟩
    simp [mkCollectibleObject]
  rw [h1, h2, h3]
  simp

/-- Amended C4: the collectible objects of the output are exactly the first
five food detections, in order (so a sixth food detection yields nothing),
and no food detection ever contributes a platform object. -/
theorem c4_food_routing (input : DetectionResponse) :
    ((buildLevel input).objects.filter
        (fun o => o.type == ObjType.collectible)).map
      (fun o => (o.label, o.confidence, o.bounds_normalized)) =
      ((input.detections.filter
          (fun d => d.category == DCategory.food)).take 5).map
        (fun d => (d.label, d.confidence, d.bounds_normalized)) ∧
    ∀ o ∈ (buildLevel input).objects, o.type = ObjType.platform →
      ¬ o.category = some DCategory.food := by
  constructor
  · rw [buildLevel_objects, objectsOf_filter_collectible]
    exact mapFrom_map_proj mkCollectibleObject
      (fun o => (o.label, o.confidence, o.bounds_normalized))
      (fun d => (d.label, d.confidence, d.bounds_normalized))
      (fun k d => rfl) _ _
  · intro o ho ht hfood
    rw [buildLevel_objects] at ho
    rcases objectsOf_mem ho with ⟨k, p, hp, hor⟩ | ⟨k, d, _, rfl⟩ | ⟨k, d, _, rfl⟩
    · rcases finalPlatforms_good input.detections with ⟨_, _, hall, _, _⟩
      have hpc := (hall p hp).2.2.2.2
      have hcat : o.category = some (if p.category = DCategory.other
          then DCategory.other else p.category) := by
        rcases hor with rfl | rfl <;> rfl
      rw [hcat] at hfood
      simp only [Option.some.injEq] at hfood
      by_cases hoth : p.category = DCategory.other
      · rw [if_pos hoth] at hfood
        cases hfood
      · rw [if_neg hoth] at hfood
        exact hpc hfood
    · exact absurd ht (by simp [mkObstacleObject])
    · exact absurd ht (by simp [mkCollectibleObject])

/-- C6: each platform chosen for enemy placement is matched back to its own
scene object; since JavaScript's `===` on the bounds record is reference
equality and each candidate's bounds record is shared with exactly one
platform object, the match is by list position, and that object gets
`enemy_spawn_anchor = true`. -/
theorem c6_enemy_anchor (input : DetectionResponse) (i : Nat)
    (h : i ∈ enemyIdxs (finalPlatforms input.detections)) :
    ∃ p o, (finalPlatforms input.detections).get? i = some p ∧
      enemyPred p = true ∧
      (buildLevel input).objects.get? i = some o ∧
      o.type = ObjType.platform ∧
      o.bounds_normalized = p.bounds ∧
      o.enemy_spawn_anchor = some true := by
  have hidx := h
  simp only [enemyIdxs, List.mem_map] at hidx
  rcases hidx with ⟨ip, hip, hfst⟩
  have hip2 : ip ∈ (finalPlatforms input.detections).enum.filter
      (fun x => enemyPred x.2) := List.take_subset _ _ hip
  have hmemf := List.mem_filter.mp hip2
  have hget0 : (finalPlatforms input.detections)[ip.1]? = some ip.2 :=
    List.mem_enum_iff_getElem?.mp hmemf.1
  have hget : (finalPlatforms input.detections).get? i = some ip.2 := by
    rw [List.get?_eq_getElem?, ← hfst]
    exact hget0
  have hlen : i < (finalPlatforms input.detections).length := by
    rcases List.get?_eq_some.mp hget with ⟨h', _⟩
    exact h'
  have hplat := mapFrom_get? mkPlatformObject 0 i (finalPlatforms input.detections)
  rw [hget] at hplat
  simp only [Option.map_some'] at hplat
  have hm := markAnchors_get? (enemyIdxs (finalPlatforms input.detections))
    (mapFrom mkPlatformObject 0 (finalPlatforms input.detections)) i
  rw [if_pos h, hplat] at hm
  simp only [Option.map_some'] at hm
  have hobj : (buildLevel input).objects.get? i =
      some (setTrueAnchor (mkPlatformObject (0 + i) ip.2)) := by
    rw [buildLevel_objects]
    simp only [objectsOf]
    have hlen1 : i < (markAnchors
        (mapFrom mkPlatformObject 0 (finalPlatforms input.detections))
        (enemyIdxs (finalPlatforms input.detections))).length := by
      rw [markAnchors_length, mapFrom_length]
      exact hlen
    have hlen2 : i < (markAnchors
        (mapFrom mkPlatformObject 0 (finalPlatforms input.detections))
        (enemyIdxs (finalPlatforms input.detections)) ++
        mapFrom mkObstacleObject (finalPlatforms input.detections).length
          ((obstacleDetections input.detections).take 4)).length := by
      rw [List.length_append]
      omega
    rw [List.get?_append hlen2, List.get?_append hlen1, hm]
  exact ⟨ip.2, setTrueAnchor (mkPlatformObject (0 + i) ip.2), hget, hmemf.2,
    hobj, rfl, rfl, rfl⟩

/-- Witness for C6: on `wideTableInput` the single wide detection platform
sits at index 2 of the final platform list and is chosen for an enemy. -/
theorem c6_witness :
    2 ∈ enemyIdxs (finalPlatforms wideTableInput.detections) ∧
    (∃ p o, (finalPlatforms wideTableInput.detections).get? 2 = some p ∧
      enemyPred p = true ∧
      (buildLevel wideTableInput).objects.get? 2 = some o ∧
      o.type = ObjType.platform ∧
      o.bounds_normalized = p.bounds ∧
      o.enemy_spawn_anchor = some true) := by
  have h : 2 ∈ enemyIdxs (finalPlatforms wideTableInput.detections) := by
    with_unfolding_all decide
  exact ⟨h, c6_enemy_anchor wideTableInput 2 h⟩

end RealityJump
